import Mathlib

/-!
Shallow embedding of `src/app/main.py`, the multi-tenant CDN upload service.

Bytes are modelled as lists of naturals, PIL as an abstract decode/encode
environment, and the per-request side effects (directory creation and file
writes) as explicit state passing over a filesystem value.  Python
exceptions are modelled with `Except`: an `HTTPException` raised by the
handler is an `Err.http`, and an exception escaping the handler (the PIL
decode failure inside `compress_image`) is an `Err.unhandled`, which the
web framework would surface as an internal server error.
-/

/-- Exceptions raised by library code used in `main.py`.  The only one the
service can hit is PIL's failure to decode the payload in `Image.open`. -/
inductive PyError where
  | decodeError
deriving DecidableEq, Repr

/-- The outcome of a request: an `HTTPException` with status code and detail
(raised deliberately by the handler), or an unhandled library exception. -/
inductive Err where
  | http (status : Nat) (detail : String)
  | unhandled (e : PyError)
deriving DecidableEq, Repr

/-- An in-memory PIL image: its color mode together with an abstract pixel
content identifier. -/
structure Img where
  mode : String
  pix : Nat
deriving DecidableEq, Repr

/-- The PIL operations used by the service: `Image.open` over a byte payload
(which can fail to decode), conversion to RGB, and JPEG encoding of an image
at a given quality (the bytes `img.save` writes into the buffer).  These are
parameters of the model; `compress_image` is defined over an arbitrary such
environment. -/
structure PILEnv where
  decode : List Nat → Option Img
  convertRGB : Img → Img
  jpegEncode : Img → Nat → List Nat

/-- The while-loop of `compress_image` (main.py lines 61-71): starting from
the given quality, encode into a buffer; return the buffer as soon as it
fits in `maxSize`, otherwise drop the quality by 5 and retry while
`quality > 40`; once the guard fails, return the buffer of the last
attempted encoding.  The first `Nat` is structural-recursion fuel: the
quality strictly decreases by 5 per iteration, so fuel equal to the initial
quality is enough, and `compress_image` calls this with fuel 85 and
quality 85.  The initial `buffer` argument models Python's not-yet-bound
`buffer` variable; it is returned only if the loop body never runs. -/
def compressLoopF (enc : Nat → List Nat) (maxSize : Nat) : Nat → Nat → List Nat → List Nat
  | 0, _, buffer => buffer
  | fuel + 1, quality, buffer =>
    if 40 < quality then
      let buf := enc quality
      if buf.length ≤ maxSize then buf
      else compressLoopF enc maxSize fuel (quality - 5) buf
    else buffer

/-- Lines 58-59 of main.py: images with an alpha channel or palette mode are
flattened to RGB before encoding. -/
def normalizeMode (pil : PILEnv) (img : Img) : Img :=
  if img.mode = "RGBA" ∨ img.mode = "P" then pil.convertRGB img else img

/-- `compress_image` (main.py lines 55-71): decode the payload (raising on
failure), normalize the color mode, then run the quality-ladder loop from
quality 85 with byte budget `maxSize`. -/
def compress_image (pil : PILEnv) (maxSize : Nat) (image_bytes : List Nat) :
    Except PyError (List Nat) :=
  match pil.decode image_bytes with
  | none => Except.error PyError.decodeError
  | some img0 =>
      Except.ok (compressLoopF (pil.jpegEncode (normalizeMode pil img0)) maxSize 85 85 [])

/-- The full descending quality ladder from a starting quality: the
qualities the loop would try if no encoding ever fit the budget (fuelled
like `compressLoopF`). -/
def qualityLadderF : Nat → Nat → List Nat
  | 0, _ => []
  | fuel + 1, quality =>
    if 40 < quality then quality :: qualityLadderF fuel (quality - 5) else []

/-- The last quality the loop would try when no encoding fits (fuelled like
`compressLoopF`). -/
def lastQualityF : Nat → Nat → Nat
  | 0, quality => quality
  | fuel + 1, quality =>
    if 40 < quality - 5 then lastQualityF fuel (quality - 5) else quality

/-- The qualities the loop actually attempts: it walks the ladder and stops
right after the first quality whose encoding fits the budget. -/
def attemptedF (enc : Nat → List Nat) (maxSize : Nat) : Nat → Nat → List Nat
  | 0, _ => []
  | fuel + 1, quality =>
    if 40 < quality then
      if (enc quality).length ≤ maxSize then [quality]
      else quality :: attemptedF enc maxSize fuel (quality - 5)
    else []

/-- The first quality in a list whose encoding fits the byte budget. -/
def firstFit (enc : Nat → List Nat) (maxSize : Nat) : List Nat → Option Nat
  | [] => none
  | q :: qs => if (enc q).length ≤ maxSize then some q else firstFit enc maxSize qs

instance {ε α : Type} [DecidableEq ε] [DecidableEq α] : DecidableEq (Except ε α) := fun a b => by
  cases a with
  | error x =>
      cases b with
      | error y => exact decidable_of_iff (x = y) (by simp)
      | ok y => exact isFalse (by simp)
  | ok x =>
      cases b with
      | error y => exact isFalse (by simp)
      | ok y => exact decidable_of_iff (x = y) (by simp)

/-- Python `value.replace("_", "").replace("-", "")` (main.py line 50):
remove every underscore and hyphen. -/
def stripUH (value : String) : String :=
  String.mk (value.toList.filter (fun c => !(c == '_' || c == '-')))

/-- Python `str.isalnum`: true iff the string is nonempty and every
character is alphanumeric.  The model restricts alphanumeric to ASCII
(Lean's `Char.isAlphanum`), which covers every character exercised by the
service's identifiers. -/
def pyIsAlnum (s : String) : Bool :=
  !s.toList.isEmpty && s.toList.all Char.isAlphanum

/-- `sanitize_segment` (main.py lines 49-52): raise HTTP 400 unless the
segment with underscores and hyphens removed satisfies `isalnum`. -/
def sanitize_segment (value : String) : Except Err String :=
  if pyIsAlnum (stripUH value) then Except.ok value
  else Except.error (Err.http 400 "Invalid folder name")

/-- A wall-clock reading, as used via `datetime.now()`. -/
structure DateTime where
  year : Nat
  month : Nat
  day : Nat
  hour : Nat
  minute : Nat
  second : Nat
deriving DecidableEq, Repr

/-- Zero-padded two-digit field of `strftime`. -/
def fmt2 (n : Nat) : String :=
  if n < 10 then "0" ++ Nat.repr n else Nat.repr n

/-- `now.strftime("%Y%m%d_%H%M%S")` (main.py line 125).  `%Y` renders the
year in decimal (4 digits for every calendar year 1000-9999); the other
fields are zero-padded to two digits. -/
def strftimeYmdHMS (t : DateTime) : String :=
  Nat.repr t.year ++ fmt2 t.month ++ fmt2 t.day ++ "_" ++
    fmt2 t.hour ++ fmt2 t.minute ++ fmt2 t.second

/-- Lowercase hexadecimal digit. -/
def hexDigitChar (n : Nat) : Char :=
  if n < 10 then Char.ofNat (48 + n) else Char.ofNat (87 + n)

/-- Big-endian fixed-width lowercase hexadecimal rendering. -/
def natToHex (width n : Nat) : String :=
  String.mk ((List.range width).map (fun i => hexDigitChar (n / 16 ^ (width - 1 - i) % 16)))

/-- `str(uuid.uuid4())` rendering of a 128-bit identifier: 32 lowercase hex
digits in 8-4-4-4-12 groups. -/
def uuidString (u : Nat) : String :=
  natToHex 8 (u / 2 ^ 96) ++ "-" ++ natToHex 4 (u / 2 ^ 80 % 2 ^ 16) ++ "-" ++
    natToHex 4 (u / 2 ^ 64 % 2 ^ 16) ++ "-" ++ natToHex 4 (u / 2 ^ 48 % 2 ^ 16) ++ "-" ++
    natToHex 12 (u % 2 ^ 48)

/-- The extension hint of main.py line 113:
`file.filename.split(".")[-1].lower() if "." in file.filename else "jpg"`.
The fold computes the characters after the last dot. -/
def extHint (filename : String) : String :=
  if filename.toList.contains '.' then
    String.mk ((filename.toList.foldl
      (fun acc c => if c = '.' then [] else acc ++ [c]) []).map Char.toLower)
  else "jpg"

/-- `os.path.join` as used at main.py line 128.  The folder built at line
108 always ends with a slash, in which case POSIX join is plain
concatenation; otherwise a separator is inserted.  (The second argument,
a generated filename, never begins with a slash.) -/
def pathJoin (a b : String) : String :=
  if a.toList.getLastD ' ' = '/' then a ++ b else a ++ "/" ++ b

/-- The filesystem visible to the service: the set of directories created
and a map from file paths to their contents (most recent write first). -/
structure FS where
  dirs : List String
  files : List (String × List Nat)
deriving DecidableEq, Repr

/-- `os.makedirs(folder, exist_ok=True)` (main.py line 109): idempotent
directory creation; never touches files. -/
def FS.mkdirs (fs : FS) (d : String) : FS :=
  if d ∈ fs.dirs then fs else { fs with dirs := d :: fs.dirs }

/-- `open(filepath, "wb").write(processed)` (main.py lines 131-132). -/
def FS.write (fs : FS) (p : String) (b : List Nat) : FS :=
  { fs with files := (p, b) :: fs.files }

/-- The process-wide configuration of main.py lines 21-43: storage root,
byte budget, and the per-service credential, public-URL and category
tables.  Credential and URL values come from `os.getenv` and may be
absent, hence `Option String`. -/
structure AppConfig where
  base_dir : String
  max_size : Nat
  allowed_keys : List (String × Option String)
  cdn_url_map : List (String × Option String)
  allowed_categories : List (String × List String)
deriving DecidableEq, Repr

/-- One upload request: the two path parameters, the uploaded file's
name hint and bytes, and the `X-API-KEY` header (absent when the header is
missing). -/
structure UploadReq where
  service_name : String
  category : String
  filename : String
  content : List Nat
  api_key : Option String
deriving DecidableEq, Repr

/-- The ambient effects consumed by one request: PIL, the two
`datetime.now()` readings (line 107 and line 124), and the value drawn by
`uuid.uuid4()`. -/
structure ReqEnv where
  pil : PILEnv
  now1 : DateTime
  now2 : DateTime
  uuid : Nat

/-- The JSON body returned on success (main.py lines 141-146). -/
structure UploadResponse where
  status : Bool
  url : String
  size : Nat
  file : String
deriving DecidableEq, Repr

/-- Steps 6-11 of `upload_image` (main.py lines 106-146), entered once all
five validation checks have passed: build the folder, create it, derive the
extension hint, re-encode or pass through, write the file, then look up the
CDN base URL and answer. -/
def uploadAfterValidation (cfg : AppConfig) (env : ReqEnv) (req : UploadReq) (fs : FS) :
    Except Err UploadResponse × FS :=
  let year := env.now1.year
  let folder := cfg.base_dir ++ "/" ++ req.service_name ++ "/" ++ Nat.repr year ++ "/" ++
    req.category ++ "/"
  let fs1 := fs.mkdirs folder
  let ext := extHint req.filename
  match (if ext ∈ ["jpg", "jpeg", "png"] then
           Except.map (fun b => (b, "jpg")) (compress_image env.pil cfg.max_size req.content)
         else Except.ok (req.content, ext)) with
  | Except.error e => (Except.error (Err.unhandled e), fs1)
  | Except.ok pe =>
      let timestamp := strftimeYmdHMS env.now2
      let unique := timestamp ++ "_" ++ uuidString env.uuid ++ "." ++ pe.2
      let filepath := pathJoin folder unique
      let fs2 := fs1.write filepath pe.1
      match (cfg.cdn_url_map.lookup req.service_name).join with
      | none => (Except.error (Err.http 500 "CDN URL not configured"), fs2)
      | some cdn =>
          if cdn = "" then (Except.error (Err.http 500 "CDN URL not configured"), fs2)
          else
            (Except.ok { status := true,
                         url := cdn ++ "/" ++ req.service_name ++ "/" ++ Nat.repr year ++ "/" ++
                           req.category ++ "/" ++ unique,
                         size := pe.1.length,
                         file := unique }, fs2)

/-- `upload_image` (main.py lines 78-146).  Steps 1-5: require the API key
header, require a known service, require the matching key, require a
whitelisted category, then sanitize both path segments (service first, so
its failure wins, as in Python's evaluation order); the first failing check
answers immediately with the filesystem untouched.  Python's
`if not api_key` treats both a missing header and an empty string as
missing; `if api_key != ALLOWED_KEYS[service_name]` compares the header
against the possibly-unset configured value. -/
def upload_image (cfg : AppConfig) (env : ReqEnv) (req : UploadReq) (fs : FS) :
    Except Err UploadResponse × FS :=
  match req.api_key with
  | none => (Except.error (Err.http 403 "API key required"), fs)
  | some key =>
      if key = "" then (Except.error (Err.http 403 "API key required"), fs)
      else
        match cfg.allowed_keys.lookup req.service_name with
        | none => (Except.error (Err.http 403 "Invalid service"), fs)
        | some stored =>
            if stored ≠ some key then (Except.error (Err.http 403 "Unauthorized API key"), fs)
            else if req.category ∉ (cfg.allowed_categories.lookup req.service_name).getD [] then
              (Except.error (Err.http 400 "Invalid category"), fs)
            else
              match sanitize_segment req.service_name, sanitize_segment req.category with
              | Except.error e, _ => (Except.error e, fs)
              | Except.ok _, Except.error e => (Except.error e, fs)
              | Except.ok sname, Except.ok cat =>
                  uploadAfterValidation cfg env
                    { req with service_name := sname, category := cat } fs

/-- Modelled from the spec (§7): the first validation failure in the
spec's stated strict order - credential presence, tenant validity,
credential match, category validity, segment sanitization - or `none` when
every check passes.  This is the reference definition claim C4 compares
the handler against. -/
def firstValidationError (cfg : AppConfig) (req : UploadReq) : Option Err :=
  if req.api_key = none ∨ req.api_key = some "" then some (Err.http 403 "API key required")
  else if (cfg.allowed_keys.lookup req.service_name) = none then
    some (Err.http 403 "Invalid service")
  else if (cfg.allowed_keys.lookup req.service_name).getD none ≠ req.api_key then
    some (Err.http 403 "Unauthorized API key")
  else if req.category ∉ (cfg.allowed_categories.lookup req.service_name).getD [] then
    some (Err.http 400 "Invalid category")
  else if ¬ pyIsAlnum (stripUH req.service_name) then some (Err.http 400 "Invalid folder name")
  else if ¬ pyIsAlnum (stripUH req.category) then some (Err.http 400 "Invalid folder name")
  else none

/-- A PIL environment whose only decodable payload is `[1]` and whose JPEG
encoder emits one byte per image at every quality (so every encoding fits
any positive budget). -/
def pilW : PILEnv :=
  { decode := fun bs => if bs = [1] then some { mode := "RGB", pix := 0 } else none,
    convertRGB := id,
    jpegEncode := fun _ q => [q] }

/-- A PIL environment that cannot decode anything. -/
def pilNone : PILEnv :=
  { decode := fun _ => none, convertRGB := id, jpegEncode := fun _ _ => [] }

/-- A concrete single-tenant configuration. -/
def cfgW : AppConfig :=
  { base_dir := "root", max_size := 10,
    allowed_keys := [("svc", some "k1")],
    cdn_url_map := [("svc", some "https://cdn.example")],
    allowed_categories := [("svc", ["photo"])] }

/-- `cfgW` with the tenant's public base URL left unconfigured. -/
def cfgNoCdn : AppConfig := { cfgW with cdn_url_map := [("svc", none)] }

/-- A concrete clock reading. -/
def nowW : DateTime := { year := 2026, month := 1, day := 2, hour := 3, minute := 4, second := 5 }

/-- A concrete request environment: both clock readings agree and the
drawn token is zero. -/
def envW : ReqEnv := { pil := pilW, now1 := nowW, now2 := nowW, uuid := 0 }

/-- `envW` with the undecodable-payload PIL environment. -/
def envBad : ReqEnv := { envW with pil := pilNone }

/-- A concrete valid request carrying a non-image payload. -/
def reqW : UploadReq :=
  { service_name := "svc", category := "photo", filename := "doc.pdf",
    content := [1, 2, 3], api_key := some "k1" }

/-- The empty filesystem. -/
def fs0 : FS := { dirs := [], files := [] }

/-- The response produced for `reqW` under `cfgW`/`envW`. -/
def respW : UploadResponse :=
  { status := true,
    url := "https://cdn.example/svc/2026/photo/20260102_030405_00000000-0000-0000-0000-000000000000.pdf",
    size := 3,
    file := "20260102_030405_00000000-0000-0000-0000-000000000000.pdf" }

/-- The filesystem produced for `reqW` under `cfgW`/`envW` starting from
`fs0` (also reached under `cfgNoCdn`, whose failure happens after the
write). -/
def fsW : FS :=
  { dirs := ["root/svc/2026/photo/"],
    files := [("root/svc/2026/photo/20260102_030405_00000000-0000-0000-0000-000000000000.pdf",
               [1, 2, 3])] }

/-- The response produced for the dotless-filename request
`{ reqW with filename := "photo", content := [1] }` under `cfgW`/`envW`. -/
def respJ : UploadResponse :=
  { status := true,
    url := "https://cdn.example/svc/2026/photo/20260102_030405_00000000-0000-0000-0000-000000000000.jpg",
    size := 1,
    file := "20260102_030405_00000000-0000-0000-0000-000000000000.jpg" }

/-- The filesystem produced for that dotless-filename request. -/
def fsJ : FS :=
  { dirs := ["root/svc/2026/photo/"],
    files := [("root/svc/2026/photo/20260102_030405_00000000-0000-0000-0000-000000000000.jpg",
               [85])] }

theorem compressLoopF_stop (enc : Nat → List Nat) (maxSize : Nat) :
    ∀ fuel quality buffer, ¬ 40 < quality →
      compressLoopF enc maxSize fuel quality buffer = buffer := by
  intro fuel quality buffer h
  cases fuel <;> simp [compressLoopF, h]

theorem qualityLadderF_stop :
    ∀ fuel quality, ¬ 40 < quality → qualityLadderF fuel quality = [] := by
  intro fuel quality h
  cases fuel <;> simp [qualityLadderF, h]

theorem attemptedF_stop (enc : Nat → List Nat) (maxSize : Nat) :
    ∀ fuel quality, ¬ 40 < quality → attemptedF enc maxSize fuel quality = [] := by
  intro fuel quality h
  cases fuel <;> simp [attemptedF, h]

theorem attemptedF_ne_nil (enc : Nat → List Nat) (maxSize : Nat) :
    ∀ fuel quality, 40 < quality → 1 ≤ fuel →
      attemptedF enc maxSize fuel quality ≠ [] := by
  intro fuel quality hq hf
  match fuel, hf with
  | fuel + 1, _ =>
    simp only [attemptedF, if_pos hq]
    split <;> simp

theorem getLastD_cons_irrel (l : List Nat) (x a b : Nat) :
    (x :: l).getLastD a = (x :: l).getLastD b := rfl

/-- Characterization of the compression loop: its result is the encoding at
the first ladder quality that fits the budget, and the encoding at the last
ladder quality when none fits. -/
theorem compressLoopF_spec (enc : Nat → List Nat) (maxSize : Nat) :
    ∀ fuel quality buffer, 40 < quality → quality ≤ fuel →
    compressLoopF enc maxSize fuel quality buffer =
      (match firstFit enc maxSize (qualityLadderF fuel quality) with
       | some q => enc q
       | none => enc (lastQualityF fuel quality)) := by
  intro fuel
  induction fuel with
  | zero => intro q buf hq hle; omega
  | succ fuel ih =>
      intro q buf hq hle
      simp only [compressLoopF, qualityLadderF, lastQualityF, if_pos hq]
      by_cases hfit : (enc q).length ≤ maxSize
      · simp [firstFit, hfit]
      · simp only [if_neg hfit, firstFit]
        by_cases h5 : 40 < q - 5
        · rw [ih (q - 5) (enc q) h5 (by omega), if_pos h5]
        · rw [compressLoopF_stop enc maxSize fuel (q - 5) (enc q) h5,
            qualityLadderF_stop fuel (q - 5) h5, if_neg h5]
          simp [firstFit]

/-- The attempted qualities are an initial segment of the full ladder. -/
theorem attemptedF_take (enc : Nat → List Nat) (maxSize : Nat) :
    ∀ fuel quality, attemptedF enc maxSize fuel quality =
      (qualityLadderF fuel quality).take (attemptedF enc maxSize fuel quality).length := by
  intro fuel
  induction fuel with
  | zero => intro q; rfl
  | succ fuel ih =>
      intro q
      by_cases hq : 40 < q
      · simp only [attemptedF, qualityLadderF, if_pos hq]
        by_cases hfit : (enc q).length ≤ maxSize
        · simp [hfit]
        · simp only [if_neg hfit, List.length_cons, List.take_succ_cons, List.cons.injEq,
            true_and]
          exact ih (q - 5)
      · simp [attemptedF, qualityLadderF, hq]

/-- Every attempted quality is above the exclusive lower bound 40. -/
theorem attemptedF_gt40 (enc : Nat → List Nat) (maxSize : Nat) :
    ∀ fuel quality q, q ∈ attemptedF enc maxSize fuel quality → 40 < q := by
  intro fuel
  induction fuel with
  | zero => intro q x hx; simp [attemptedF] at hx
  | succ fuel ih =>
      intro q x hx
      by_cases hq : 40 < q
      · simp only [attemptedF, if_pos hq] at hx
        by_cases hfit : (enc q).length ≤ maxSize
        · simp [hfit] at hx; omega
        · simp only [if_neg hfit, List.mem_cons] at hx
          rcases hx with rfl | hx
          · exact hq
          · exact ih (q - 5) x hx
      · simp [attemptedF, hq] at hx

/-- The loop result is the encoding at the last attempted quality. -/
theorem compressLoopF_attemptedF (enc : Nat → List Nat) (maxSize : Nat) :
    ∀ fuel quality buffer, 40 < quality → quality ≤ fuel →
    compressLoopF enc maxSize fuel quality buffer =
      enc ((attemptedF enc maxSize fuel quality).getLastD 0) := by
  intro fuel
  induction fuel with
  | zero => intro q buf hq hle; omega
  | succ fuel ih =>
      intro q buf hq hle
      simp only [compressLoopF, attemptedF, if_pos hq]
      by_cases hfit : (enc q).length ≤ maxSize
      · simp [hfit]
      · simp only [if_neg hfit]
        by_cases h5 : 40 < q - 5
        · rw [ih (q - 5) (enc q) h5 (by omega)]
          have hne : attemptedF enc maxSize fuel (q - 5) ≠ [] :=
            attemptedF_ne_nil enc maxSize fuel (q - 5) h5 (by omega)
          rcases hl : attemptedF enc maxSize fuel (q - 5) with _ | ⟨y, ys⟩
          · exact absurd hl hne
          · have harg : (q :: y :: ys).getLastD 0 = (y :: ys).getLastD 0 := by
              rw [List.getLastD_cons]
              exact getLastD_cons_irrel ys y q 0
            rw [harg]
        · rw [compressLoopF_stop enc maxSize fuel (q - 5) (enc q) h5,
            attemptedF_stop enc maxSize fuel (q - 5) h5]
          rfl

/-- **C1**: for every decodable image payload, `compress_image` runs an
iterative search trying JPEG encodings at quality 85, then down in steps
of 5, and returns the bytes of the first attempted encoding whose size
fits the configured byte budget; if no tried quality above 40 meets the
budget, it returns the bytes of the last attempted encoding, at quality
45, rather than failing - the budget is best-effort, not guaranteed. -/
theorem compress_image_first_fit (pil : PILEnv) (maxSize : Nat) (image_bytes : List Nat)
    (img0 : Img) (hdec : pil.decode image_bytes = some img0) :
    compress_image pil maxSize image_bytes =
      Except.ok
        (match firstFit (pil.jpegEncode (normalizeMode pil img0)) maxSize
            [85, 80, 75, 70, 65, 60, 55, 50, 45] with
         | some q => pil.jpegEncode (normalizeMode pil img0) q
         | none => pil.jpegEncode (normalizeMode pil img0) 45) := by
  have h1 : qualityLadderF 85 85 = [85, 80, 75, 70, 65, 60, 55, 50, 45] := rfl
  have h2 : lastQualityF 85 85 = 45 := rfl
  simp only [compress_image, hdec]
  rw [compressLoopF_spec _ _ 85 85 [] (by omega) (by omega), h1, h2]

/-- Witness for C1 at a decodable payload on which no quality fits the
zero byte budget: the result is the quality-45 encoding. -/
theorem compress_image_first_fit_witness :
    pilW.decode [1] = some { mode := "RGB", pix := 0 } ∧
    compress_image pilW 0 [1] = Except.ok [45] := by
  have h := compress_image_first_fit pilW 0 [1] { mode := "RGB", pix := 0 } rfl
  exact ⟨rfl, h.trans (by decide)⟩

/-- **C9**: `compress_image` terminates on every decodable input: the
attempted qualities form an initial segment of the descending ladder
85, 80, ..., 45, hence at most 10 iterations, every attempted quality is
above 40 (the loop stops before quality drops to 40 or below), and the
returned bytes are the encoding at the last attempted quality. -/
theorem compress_image_iteration_bound (pil : PILEnv) (maxSize : Nat) (image_bytes : List Nat)
    (img0 : Img) (hdec : pil.decode image_bytes = some img0) :
    (∃ k, attemptedF (pil.jpegEncode (normalizeMode pil img0)) maxSize 85 85 =
        [85, 80, 75, 70, 65, 60, 55, 50, 45].take k) ∧
    (attemptedF (pil.jpegEncode (normalizeMode pil img0)) maxSize 85 85).length ≤ 10 ∧
    (∀ q ∈ attemptedF (pil.jpegEncode (normalizeMode pil img0)) maxSize 85 85, 40 < q) ∧
    compress_image pil maxSize image_bytes =
      Except.ok (pil.jpegEncode (normalizeMode pil img0)
        ((attemptedF (pil.jpegEncode (normalizeMode pil img0)) maxSize 85 85).getLastD 0)) := by
  refine ⟨⟨(attemptedF (pil.jpegEncode (normalizeMode pil img0)) maxSize 85 85).length, ?_⟩,
    ?_, ?_, ?_⟩
  · have h := attemptedF_take (pil.jpegEncode (normalizeMode pil img0)) maxSize 85 85
    rw [show qualityLadderF 85 85 = [85, 80, 75, 70, 65, 60, 55, 50, 45] from rfl] at h
    exact h
  · have hl := congrArg List.length
      (attemptedF_take (pil.jpegEncode (normalizeMode pil img0)) maxSize 85 85)
    rw [List.length_take] at hl
    rw [hl, show (qualityLadderF 85 85).length = 9 from rfl]
    exact le_trans (Nat.min_le_right _ _) (by norm_num)
  · intro q hq
    exact attemptedF_gt40 (pil.jpegEncode (normalizeMode pil img0)) maxSize 85 85 q hq
  · simp only [compress_image, hdec]
    rw [compressLoopF_attemptedF (pil.jpegEncode (normalizeMode pil img0)) maxSize 85 85 []
      (by omega) (by omega)]

/-- Witness for C9 at a concrete decodable payload and budget 0 (no
quality fits, so all nine ladder qualities are attempted). -/
theorem compress_image_iteration_bound_witness :
    (attemptedF (pilW.jpegEncode (normalizeMode pilW { mode := "RGB", pix := 0 })) 0 85 85).length
      ≤ 10 ∧
    compress_image pilW 0 [1] =
      Except.ok (pilW.jpegEncode (normalizeMode pilW { mode := "RGB", pix := 0 })
        ((attemptedF (pilW.jpegEncode (normalizeMode pilW { mode := "RGB", pix := 0 }))
          0 85 85).getLastD 0)) := by
  have h := compress_image_iteration_bound pilW 0 [1] { mode := "RGB", pix := 0 } rfl
  exact ⟨h.2.1, h.2.2.2⟩

/-- **C5** fails as stated: the segment `"_"` is composed solely of
characters drawn from letters, digits, underscore and hyphen (and after
removing underscores and hyphens every remaining character is vacuously
alphanumeric), yet `sanitize_segment` rejects it, because Python's
`isalnum` is false on the empty string. -/
theorem sanitize_segment_underscore_cex :
    ("_".toList.all (fun c => c.isAlphanum || c == '_' || c == '-')) = true ∧
    (stripUH "_").toList.all Char.isAlphanum = true ∧
    sanitize_segment "_" = Except.error (Err.http 400 "Invalid folder name") := by
  decide

/-- **C5** (amended): `sanitize_segment` accepts a segment exactly when it
contains at least one character besides underscore and hyphen and every
character is alphanumeric, underscore or hyphen; segments that are empty
or consist solely of underscores and hyphens are rejected. -/
theorem sanitize_segment_accepts_iff (value : String) :
    sanitize_segment value = Except.ok value ↔
      ((∃ c ∈ value.toList, ¬ (c = '_' ∨ c = '-')) ∧
       ∀ c ∈ value.toList, c.isAlphanum = true ∨ c = '_' ∨ c = '-') := by
  have hs : sanitize_segment value = Except.ok value ↔ pyIsAlnum (stripUH value) = true := by
    unfold sanitize_segment
    by_cases h : pyIsAlnum (stripUH value) = true
    · simp [h]
    · simp [h]
  rw [hs]
  show (!(value.toList.filter fun c => !(c == '_' || c == '-')).isEmpty &&
        (value.toList.filter fun c => !(c == '_' || c == '-')).all Char.isAlphanum) = true ↔ _
  have hp : ∀ c : Char, ((!(c == '_' || c == '-')) = true) ↔ ¬ (c = '_' ∨ c = '-') := by
    intro c; simp
  rw [Bool.and_eq_true]
  constructor
  · rintro ⟨h1, h2⟩
    rcases hl : value.toList.filter (fun c => !(c == '_' || c == '-')) with _ | ⟨c, cs⟩
    · rw [hl] at h1; exact absurd h1 (by decide)
    · have hcmem : c ∈ value.toList.filter (fun c => !(c == '_' || c == '-')) := by
        rw [hl]; exact List.mem_cons_self c cs
      have hc := List.mem_filter.mp hcmem
      refine ⟨⟨c, hc.1, (hp c).mp hc.2⟩, ?_⟩
      intro x hx
      by_cases hxp : x = '_' ∨ x = '-'
      · exact Or.inr hxp
      · left
        have hxmem : x ∈ value.toList.filter (fun c => !(c == '_' || c == '-')) :=
          List.mem_filter.mpr ⟨hx, (hp x).mpr hxp⟩
        exact List.all_eq_true.mp h2 x hxmem
  · rintro ⟨⟨c, hc, hcp⟩, hall⟩
    have hcmem : c ∈ value.toList.filter (fun c => !(c == '_' || c == '-')) :=
      List.mem_filter.mpr ⟨hc, (hp c).mpr hcp⟩
    constructor
    · rcases hl : value.toList.filter (fun c => !(c == '_' || c == '-')) with _ | ⟨y, ys⟩
      · rw [hl] at hcmem; exact absurd hcmem (by simp)
      · rfl
    · refine List.all_eq_true.mpr ?_
      intro x hxmem
      have hx := List.mem_filter.mp hxmem
      rcases hall x hx.1 with h | h
      · exact h
      · exact absurd h ((hp x).mp hx.2)

theorem FS.mkdirs_files (fs : FS) (d : String) : (fs.mkdirs d).files = fs.files := by
  unfold FS.mkdirs
  split <;> rfl

theorem FS.mem_mkdirs_dirs (fs : FS) (d : String) : d ∈ (fs.mkdirs d).dirs := by
  unfold FS.mkdirs
  split
  · assumption
  · exact List.mem_cons_self _ _

theorem pathJoin_slash (a b : String) : pathJoin (a ++ "/") b = a ++ "/" ++ b := by
  have h : (a ++ "/").toList.getLastD ' ' = '/' := by
    show (a ++ "/").data.getLastD ' ' = '/'
    rw [String.data_append]
    exact List.getLastD_concat _ _ _
  unfold pathJoin
  rw [if_pos h]

/-- The handler first runs the five validation checks in order and answers
the first failure with the filesystem untouched; only when all pass does
it proceed to the storage steps. -/
theorem upload_image_validation_split (cfg : AppConfig) (env : ReqEnv) (req : UploadReq)
    (fs : FS) :
    upload_image cfg env req fs =
      (match firstValidationError cfg req with
       | some e => (Except.error e, fs)
       | none => uploadAfterValidation cfg env req fs) := by
  have hss : ∀ v : String, pyIsAlnum (stripUH v) = true → sanitize_segment v = Except.ok v := by
    intro v hv
    unfold sanitize_segment
    rw [if_pos hv]
  have hse : ∀ v : String, ¬ pyIsAlnum (stripUH v) = true →
      sanitize_segment v = Except.error (Err.http 400 "Invalid folder name") := by
    intro v hv
    unfold sanitize_segment
    rw [if_neg hv]
  rcases hak : req.api_key with _ | key
  · simp [upload_image, firstValidationError, hak]
  · by_cases hk0 : key = ""
    · simp [upload_image, firstValidationError, hak, hk0]
    · rcases hlk : List.lookup req.service_name cfg.allowed_keys with _ | stored
      · simp [upload_image, firstValidationError, hak, hk0, hlk]
      · by_cases hcred : stored = some key
        · by_cases hcat :
              req.category ∈ (List.lookup req.service_name cfg.allowed_categories).getD []
          · by_cases hs1 : pyIsAlnum (stripUH req.service_name) = true
            · by_cases hs2 : pyIsAlnum (stripUH req.category) = true
              · simp [upload_image, firstValidationError, hak, hk0, hlk, hcred, hcat,
                  hs1, hs2, hss _ hs1, hss _ hs2]
                rw [← hak]
              · simp [upload_image, firstValidationError, hak, hk0, hlk, hcred, hcat,
                  hs1, hs2, hss _ hs1, hse _ hs2]
            · simp [upload_image, firstValidationError, hak, hk0, hlk, hcred, hcat,
                hs1, hse _ hs1]
          · simp [upload_image, firstValidationError, hak, hk0, hlk, hcred, hcat]
        · simp [upload_image, firstValidationError, hak, hk0, hlk, hcred]

/-- **C4**: the validation checks run in the strict order credential
presence → tenant validity → credential match → category validity →
segment sanitization; the first failing check determines the response,
short-circuiting all later checks, and every validation failure is raised
with the filesystem untouched - no directory created, no file written. -/
theorem upload_validation_order (cfg : AppConfig) (env : ReqEnv) (req : UploadReq) (fs : FS)
    (e : Err) (h : firstValidationError cfg req = some e) :
    upload_image cfg env req fs = (Except.error e, fs) := by
  rw [upload_image_validation_split, h]

/-- Witness for C4 at a request failing both the credential match and the
category check: the earlier check (credential) wins and the filesystem is
returned unchanged. -/
theorem upload_validation_order_witness :
    firstValidationError cfgW { reqW with api_key := some "bad", category := "nope" } =
      some (Err.http 403 "Unauthorized API key") ∧
    upload_image cfgW envW { reqW with api_key := some "bad", category := "nope" } fs0 =
      (Except.error (Err.http 403 "Unauthorized API key"), fs0) :=
  ⟨by decide, upload_validation_order cfgW envW _ fs0 _ (by decide)⟩

/-- **C6** fails as stated: an unknown tenant and a known tenant with a
mismatching credential both receive status 403, but the response details
differ ("Invalid service" versus "Unauthorized API key"), so the two
rejections are distinguishable and valid tenant identifiers can be
enumerated. -/
theorem tenant_enumeration_cex :
    (upload_image cfgW envW { reqW with service_name := "ghost" } fs0).1 =
      Except.error (Err.http 403 "Invalid service") ∧
    (upload_image cfgW envW { reqW with api_key := some "wrong" } fs0).1 =
      Except.error (Err.http 403 "Unauthorized API key") ∧
    ("Invalid service" : String) ≠ "Unauthorized API key" := by
  decide

/-- **C6** (amended): both rejections share status 403 and leave the
filesystem untouched, but carry distinct fixed detail strings - "Invalid
service" for an unrecognized tenant and "Unauthorized API key" for a
credential mismatch - so the responses are distinguishable beyond their
shared status category. -/
theorem auth_error_responses (cfg : AppConfig) (env : ReqEnv) (req : UploadReq) (fs : FS)
    (key : String) (hk : req.api_key = some key) (hk0 : key ≠ "") :
    (List.lookup req.service_name cfg.allowed_keys = none →
      upload_image cfg env req fs = (Except.error (Err.http 403 "Invalid service"), fs)) ∧
    (∀ stored, List.lookup req.service_name cfg.allowed_keys = some stored →
      stored ≠ some key →
      upload_image cfg env req fs = (Except.error (Err.http 403 "Unauthorized API key"), fs)) := by
  constructor
  · intro hlk
    simp [upload_image, hk, hk0, hlk]
  · intro stored hlk hcred
    simp [upload_image, hk, hk0, hlk, hcred]

/-- Witness for C6 (amended) at the concrete unknown-tenant request. -/
theorem auth_error_responses_witness :
    upload_image cfgW envW { reqW with service_name := "ghost" } fs0 =
      (Except.error (Err.http 403 "Invalid service"), fs0) :=
  (auth_error_responses cfgW envW { reqW with service_name := "ghost" } fs0 "k1" rfl
    (by decide)).1 (by decide)

/-- **C2** fails as stated: a payload whose extension routes it to the
re-encoder but whose bytes do not decode makes the request fail with an
unhandled decode error, and nothing is stored - the raw bytes are not
written. -/
theorem upload_decode_failure_cex :
    (upload_image cfgW envBad { reqW with filename := "x.jpg" } fs0).1 =
      Except.error (Err.unhandled PyError.decodeError) ∧
    (upload_image cfgW envBad { reqW with filename := "x.jpg" } fs0).2.files = [] := by
  decide

/-- **C2** (amended): when the extension hint routes the payload to the
re-encoder but the bytes do not decode, the decode failure propagates out
of the handler as an unhandled exception: the request fails with an
internal error, and no file - in particular not the raw bytes - is
stored. -/
theorem upload_decode_failure_propagates (cfg : AppConfig) (env : ReqEnv) (req : UploadReq)
    (fs : FS)
    (hval : firstValidationError cfg req = none)
    (hext : extHint req.filename ∈ ["jpg", "jpeg", "png"])
    (hdec : env.pil.decode req.content = none) :
    (upload_image cfg env req fs).1 = Except.error (Err.unhandled PyError.decodeError) ∧
    (upload_image cfg env req fs).2.files = fs.files := by
  have hc : compress_image env.pil cfg.max_size req.content =
      Except.error PyError.decodeError := by
    unfold compress_image
    rw [hdec]
  rw [upload_image_validation_split, hval]
  simp only [uploadAfterValidation]
  rw [if_pos hext, hc]
  constructor
  · simp [Except.map]
  · simp [Except.map, FS.mkdirs_files]

/-- Witness for C2 (amended) at the concrete undecodable `.jpg` upload. -/
theorem upload_decode_failure_propagates_witness :
    (upload_image cfgW envBad { reqW with filename := "x.jpg" } fs0).1 =
      Except.error (Err.unhandled PyError.decodeError) ∧
    (upload_image cfgW envBad { reqW with filename := "x.jpg" } fs0).2.files = fs0.files :=
  upload_decode_failure_propagates cfgW envBad { reqW with filename := "x.jpg" } fs0
    (by decide) (by decide) rfl

/-- **C3** fails as stated: with the tenant's public base URL left
unconfigured, the request fails with the configuration error, yet the
complete file is visible at the final storage path, because the write at
step 10 precedes the URL check at step 11. -/
theorem upload_config_error_leaves_file_cex :
    upload_image cfgNoCdn envW reqW fs0 =
      (Except.error (Err.http 500 "CDN URL not configured"), fsW) ∧
    fsW.files.lookup
        "root/svc/2026/photo/20260102_030405_00000000-0000-0000-0000-000000000000.pdf" =
      some [1, 2, 3] := by
  decide

theorem write_files_exists (fs : FS) (d p : String) (b : List Nat) (fs2 : FS)
    (h : (fs.mkdirs d).write p b = fs2) : ∃ q c, fs2.files = (q, c) :: fs.files :=
  ⟨p, b, by rw [← h]; simp [FS.write, FS.mkdirs_files]⟩

/-- **C3** (amended): every request failure other than the
unconfigured-base-URL error leaves the visible files exactly as they were
(validation failures touch nothing, a decode failure at most creates the
directory); the configuration error alone is raised after the write, so
it leaves the complete file visible at the final path. -/
theorem upload_failure_file_visibility (cfg : AppConfig) (env : ReqEnv) (req : UploadReq)
    (fs : FS) (e : Err) (fs2 : FS)
    (h : upload_image cfg env req fs = (Except.error e, fs2)) :
    (e = Err.http 500 "CDN URL not configured" ∧ ∃ p b, fs2.files = (p, b) :: fs.files) ∨
    fs2.files = fs.files := by
  rw [upload_image_validation_split] at h
  rcases hfe : firstValidationError cfg req with _ | e2
  · rw [hfe] at h
    simp only [uploadAfterValidation] at h
    split at h
    · rw [Prod.mk.injEq] at h
      right
      rw [← h.2, FS.mkdirs_files]
    · split at h
      · rw [Prod.mk.injEq] at h
        obtain ⟨h1, h2⟩ := h
        rw [Except.error.injEq] at h1
        left
        exact ⟨h1.symm, write_files_exists _ _ _ _ _ h2⟩
      · split at h
        · rw [Prod.mk.injEq] at h
          obtain ⟨h1, h2⟩ := h
          rw [Except.error.injEq] at h1
          left
          exact ⟨h1.symm, write_files_exists _ _ _ _ _ h2⟩
        · rw [Prod.mk.injEq] at h
          exact absurd h.1 (by simp)
  · rw [hfe] at h
    rw [Prod.mk.injEq] at h
    right
    rw [← h.2]

/-- Witness for C3 (amended) at the unconfigured-base-URL run. -/
theorem upload_failure_file_visibility_witness :
    (Err.http 500 "CDN URL not configured" = Err.http 500 "CDN URL not configured" ∧
      ∃ p b, fsW.files = (p, b) :: fs0.files) ∨ fsW.files = fs0.files :=
  upload_failure_file_visibility cfgNoCdn envW reqW fs0
    (Err.http 500 "CDN URL not configured") fsW (by decide)

theorem except_map_eq_ok {ε α β : Type} (f : α → β) (x : Except ε α) (y : β)
    (h : Except.map f x = Except.ok y) : ∃ a, x = Except.ok a ∧ y = f a := by
  cases x with
  | error e => simp [Except.map] at h
  | ok a =>
      refine ⟨a, rfl, ?_⟩
      simpa [Except.map] using h.symm

/-- Anatomy of every successful request: the CDN base URL is configured and
nonempty, the stored bytes and final extension come from the re-encoder or
the raw passthrough according to the extension hint, and the response and
final filesystem have exactly the shapes built in steps 6-11. -/
theorem upload_ok_shape (cfg : AppConfig) (env : ReqEnv) (req : UploadReq) (fs : FS)
    (resp : UploadResponse) (fs2 : FS)
    (hok : upload_image cfg env req fs = (Except.ok resp, fs2)) :
    ∃ cdn processed final_ext,
      (List.lookup req.service_name cfg.cdn_url_map).join = some cdn ∧ cdn ≠ "" ∧
      (if extHint req.filename ∈ ["jpg", "jpeg", "png"] then
        compress_image env.pil cfg.max_size req.content = Except.ok processed ∧
          final_ext = "jpg"
       else processed = req.content ∧ final_ext = extHint req.filename) ∧
      resp.status = true ∧
      resp.file = strftimeYmdHMS env.now2 ++ "_" ++ uuidString env.uuid ++ "." ++ final_ext ∧
      resp.url = cdn ++ "/" ++ req.service_name ++ "/" ++ Nat.repr env.now1.year ++ "/" ++
        req.category ++ "/" ++ resp.file ∧
      resp.size = processed.length ∧
      fs2.dirs = (fs.mkdirs (cfg.base_dir ++ "/" ++ req.service_name ++ "/" ++
        Nat.repr env.now1.year ++ "/" ++ req.category ++ "/")).dirs ∧
      fs2.files = (cfg.base_dir ++ "/" ++ req.service_name ++ "/" ++ Nat.repr env.now1.year ++
        "/" ++ req.category ++ "/" ++ resp.file, processed) :: fs.files := by
  have hval : firstValidationError cfg req = none := by
    rcases hfe : firstValidationError cfg req with _ | e2
    · rfl
    · rw [upload_image_validation_split, hfe] at hok
      exact absurd hok (by simp)
  rw [upload_image_validation_split, hval] at hok
  simp only [uploadAfterValidation] at hok
  split at hok
  · exact absurd hok (by simp)
  · rename_i pe hpe
    split at hok
    · exact absurd hok (by simp)
    · rename_i cdn hcdn
      split at hok
      · exact absurd hok (by simp)
      · rename_i hc0
        rw [Prod.mk.injEq] at hok
        obtain ⟨hresp, hfs⟩ := hok
        rw [Except.ok.injEq] at hresp
        subst hresp
        subst hfs
        refine ⟨cdn, pe.1, pe.2, hcdn, hc0, ?_, rfl, rfl, rfl, rfl, rfl, ?_⟩
        · by_cases hext : extHint req.filename ∈ ["jpg", "jpeg", "png"]
          · rw [if_pos hext] at hpe ⊢
            obtain ⟨b, hb, hpe2⟩ := except_map_eq_ok _ _ _ hpe
            subst hpe2
            exact ⟨hb, rfl⟩
          · rw [if_neg hext] at hpe ⊢
            rw [Except.ok.injEq] at hpe
            subst hpe
            exact ⟨rfl, rfl⟩
        · simp only [FS.write]
          rw [FS.mkdirs_files, pathJoin_slash]

/-- **C7**: every successful upload at a single instant `now` (both clock
readings agree) stores the file under
`<root>/<tenantId>/<year>/<category>/` with the year taken from `now`,
names it `<YYYYMMDD>_<HHMMSS>_<token>.<extension>` with the timestamp
derived from `now` and the token the canonical rendering of the drawn
128-bit identifier, and returns the public URL
`<tenantPublicBaseUrl>/<tenantId>/<year>/<category>/<filename>`, which
structurally mirrors the storage path. -/
theorem upload_path_structure (cfg : AppConfig) (env : ReqEnv) (req : UploadReq) (fs : FS)
    (resp : UploadResponse) (fs2 : FS) (now : DateTime)
    (h1 : env.now1 = now) (h2 : env.now2 = now)
    (hyear : (Nat.repr now.year).length = 4)
    (huuid : env.uuid < 2 ^ 128)
    (hok : upload_image cfg env req fs = (Except.ok resp, fs2)) :
    ∃ cdn ext processed,
      (List.lookup req.service_name cfg.cdn_url_map).join = some cdn ∧
      resp.file = strftimeYmdHMS now ++ "_" ++ uuidString env.uuid ++ "." ++ ext ∧
      resp.url = cdn ++ "/" ++ req.service_name ++ "/" ++ Nat.repr now.year ++ "/" ++
        req.category ++ "/" ++ resp.file ∧
      (cfg.base_dir ++ "/" ++ req.service_name ++ "/" ++ Nat.repr now.year ++ "/" ++
        req.category ++ "/") ∈ fs2.dirs ∧
      fs2.files = (cfg.base_dir ++ "/" ++ req.service_name ++ "/" ++ Nat.repr now.year ++
        "/" ++ req.category ++ "/" ++ resp.file, processed) :: fs.files ∧
      resp.size = processed.length := by
  subst h1
  obtain ⟨cdn, processed, fext, hcdn, hc0, hif, hstatus, hfile, hurl, hsize, hdirs, hfiles⟩ :=
    upload_ok_shape cfg env req fs resp fs2 hok
  refine ⟨cdn, fext, processed, hcdn, ?_, hurl, ?_, hfiles, hsize⟩
  · rw [hfile, h2]
  · rw [hdirs]
    exact FS.mem_mkdirs_dirs _ _

/-- Witness for C7 at the concrete successful upload of `reqW`. -/
theorem upload_path_structure_witness :
    ∃ cdn ext processed,
      (List.lookup "svc" cfgW.cdn_url_map).join = some cdn ∧
      respW.file = strftimeYmdHMS nowW ++ "_" ++ uuidString envW.uuid ++ "." ++ ext ∧
      respW.url = cdn ++ "/" ++ "svc" ++ "/" ++ Nat.repr nowW.year ++ "/" ++ "photo" ++ "/" ++
        respW.file ∧
      (cfgW.base_dir ++ "/" ++ "svc" ++ "/" ++ Nat.repr nowW.year ++ "/" ++ "photo" ++ "/") ∈
        fsW.dirs ∧
      fsW.files = (cfgW.base_dir ++ "/" ++ "svc" ++ "/" ++ Nat.repr nowW.year ++ "/" ++
        "photo" ++ "/" ++ respW.file, processed) :: fs0.files ∧
      respW.size = processed.length :=
  upload_path_structure cfgW envW reqW fs0 respW fsW nowW rfl rfl (by decide) (by decide)
    (by decide)

/-- **C8** fails as stated: the payload named `doc.PDF` is not re-encoded
(its bytes pass through unchanged), but its stored extension is the
lowercased `pdf`, not the original `PDF` - the original extension is not
preserved verbatim. -/
theorem extension_case_cex :
    extHint "doc.PDF" = "pdf" ∧
    ("doc.PDF".toList.foldl (fun acc c => if c = '.' then [] else acc ++ [c]) []) =
      ['P', 'D', 'F'] ∧
    upload_image cfgW envW { reqW with filename := "doc.PDF" } fs0 =
      (Except.ok respW, fsW) ∧
    respW.file = "20260102_030405_00000000-0000-0000-0000-000000000000.pdf" := by
  decide

/-- **C8** (amended): the derived extension is the lowercased text after
the filename's last dot (jpg when there is no dot); exactly the derived
extensions jpg, jpeg and png route the payload through the re-encoder, in
which case the stored extension is `.jpg`; every other payload is stored
byte-identical to the input, with the lowercased original extension. -/
theorem extension_routing (cfg : AppConfig) (env : ReqEnv) (req : UploadReq) (fs : FS)
    (resp : UploadResponse) (fs2 : FS)
    (hok : upload_image cfg env req fs = (Except.ok resp, fs2)) :
    (extHint req.filename ∈ ["jpg", "jpeg", "png"] →
      ∃ b stem, compress_image env.pil cfg.max_size req.content = Except.ok b ∧
        resp.file = stem ++ ".jpg" ∧ resp.size = b.length ∧
        ∃ p, fs2.files = (p, b) :: fs.files) ∧
    (extHint req.filename ∉ ["jpg", "jpeg", "png"] →
      ∃ stem, resp.file = stem ++ "." ++ extHint req.filename ∧
        resp.size = req.content.length ∧
        ∃ p, fs2.files = (p, req.content) :: fs.files) := by
  obtain ⟨cdn, processed, fext, hcdn, hc0, hif, hstatus, hfile, hurl, hsize, hdirs, hfiles⟩ :=
    upload_ok_shape cfg env req fs resp fs2 hok
  constructor
  · intro hext
    rw [if_pos hext] at hif
    obtain ⟨hcomp, hfext⟩ := hif
    subst hfext
    refine ⟨processed, strftimeYmdHMS env.now2 ++ "_" ++ uuidString env.uuid, hcomp, ?_,
      hsize, _, hfiles⟩
    rw [hfile, String.append_assoc]
    rfl
  · intro hext
    rw [if_neg hext] at hif
    obtain ⟨hproc, hfext⟩ := hif
    subst hproc
    subst hfext
    exact ⟨strftimeYmdHMS env.now2 ++ "_" ++ uuidString env.uuid, hfile, hsize, _, hfiles⟩

/-- Witness for C8 (amended) at the concrete `doc.PDF` upload. -/
theorem extension_routing_witness :
    (extHint "doc.PDF" ∈ ["jpg", "jpeg", "png"] →
      ∃ b stem, compress_image envW.pil cfgW.max_size [1, 2, 3] = Except.ok b ∧
        respW.file = stem ++ ".jpg" ∧ respW.size = b.length ∧
        ∃ p, fsW.files = (p, b) :: fs0.files) ∧
    (extHint "doc.PDF" ∉ ["jpg", "jpeg", "png"] →
      ∃ stem, respW.file = stem ++ "." ++ extHint "doc.PDF" ∧
        respW.size = ([1, 2, 3] : List Nat).length ∧
        ∃ p, fsW.files = (p, [1, 2, 3]) :: fs0.files) :=
  extension_routing cfgW envW { reqW with filename := "doc.PDF" } fs0 respW fsW (by decide)

/-- **C10**: a filename hint containing no dot defaults the extension to
jpg, so the payload is routed through the image re-encoder - on success
the stored bytes are a re-encoding (the payload was decoded and
recompressed) and the stored name ends in `.jpg`, even though no
extension indicated a raster image. -/
theorem no_dot_default_jpg_routes (cfg : AppConfig) (env : ReqEnv) (req : UploadReq) (fs : FS)
    (resp : UploadResponse) (fs2 : FS)
    (hnd : req.filename.toList.contains '.' = false)
    (hok : upload_image cfg env req fs = (Except.ok resp, fs2)) :
    extHint req.filename = "jpg" ∧
    ∃ b stem, compress_image env.pil cfg.max_size req.content = Except.ok b ∧
      resp.file = stem ++ ".jpg" ∧ resp.size = b.length ∧
      ∃ p, fs2.files = (p, b) :: fs.files := by
  have hext : extHint req.filename = "jpg" := by
    have hc : ¬ req.filename.toList.contains '.' = true := by
      rw [hnd]
      simp
    unfold extHint
    rw [if_neg hc]
  refine ⟨hext, ?_⟩
  obtain ⟨cdn, processed, fext, hcdn, hc0, hif, hstatus, hfile, hurl, hsize, hdirs, hfiles⟩ :=
    upload_ok_shape cfg env req fs resp fs2 hok
  rw [hext] at hif
  rw [if_pos (show ("jpg" : String) ∈ ["jpg", "jpeg", "png"] by decide)] at hif
  obtain ⟨hcomp, hfext⟩ := hif
  subst hfext
  refine ⟨processed, strftimeYmdHMS env.now2 ++ "_" ++ uuidString env.uuid, hcomp, ?_,
    hsize, _, hfiles⟩
  rw [hfile, String.append_assoc]
  rfl

/-- Witness for C10 at the concrete dotless-filename upload. -/
theorem no_dot_default_jpg_routes_witness :
    extHint "photo" = "jpg" ∧
    ∃ b stem, compress_image envW.pil cfgW.max_size [1] = Except.ok b ∧
      respJ.file = stem ++ ".jpg" ∧ respJ.size = b.length ∧
      ∃ p, fsJ.files = (p, b) :: fs0.files :=
  no_dot_default_jpg_routes cfgW envW { reqW with filename := "photo", content := [1] } fs0
    respJ fsJ (by decide) (by decide)
